import Mathlib

/-!
Verification of the QR-generator client (`client/src/pages/qr-generator.tsx`).

The development shallowly embeds the functions of the source file:

* `getBase64PayloadBytes`, `compressImageToSize` (the adaptive image
  compressor, lines 94-175 of the source);
* `generateVCard`, `getQRContent`, `isValidURL`, `hasValidContent`,
  `generateQRCode`, `downloadQRCode` (content resolution and rendering);
* the image-mode switch handlers and the `processImageFile` upload path.

Conventions of the embedding:

* JPEG quality is a float in `[0, 1]` in the source (`0.5`, steps of `0.05`,
  floor `0.05`).  It is modelled in hundredths as a `Nat` (`50`, steps of `5`,
  floor `5`), mirroring the exact decimal arithmetic the source intends.
* `canvas.toDataURL('image/jpeg', quality)` is an external browser routine;
  it is abstracted as an oracle `enc : Nat → Nat → Nat → String` giving the
  data URL produced at a given width, height and quality.  Theorems are
  proved for every oracle.
* The `setTimeout`-driven loop of `compressImageToSize` is written as a
  recursive function over an explicit `fuel` argument (via `Nat.rec`, so that
  concrete runs reduce).  `fuel` only justifies the recursion: the source's
  own bound (`attempts >= maxAttempts`, part of the exit test of line 142)
  always fires first, so from the entry point (`fuel = maxAttempts`,
  `attempts = 0`) the `fuel = 0` fallback branch is dead; the invariant
  `maxAttempts ≤ fuel + attempts + 1` carried by the lemmas makes this
  precise.
* Strings in data URLs are ASCII, where JavaScript's UTF-16 `length` and
  Lean's codepoint `String.length` agree.
-/

/-! ### Base64 payload accounting (source lines 94-103) -/

/-- The seven characters of the `'base64,'` marker searched for by
`dataUrl.indexOf('base64,')`. -/
def base64Marker : List Char := ['b', 'a', 's', 'e', '6', '4', ',']

/-- Whether the first list occurs at the front of the second
(character-by-character comparison). -/
def listStarts : List Char → List Char → Bool
  | [], _ => true
  | _ :: _, [] => false
  | p :: ps, c :: cs => p == c && listStarts ps cs

/-- Index of the first occurrence of `base64Marker`, mirroring
`String.prototype.indexOf` (`none` stands for the `-1` result). -/
def markerIdx : List Char → Option Nat
  | [] => none
  | c :: cs =>
    if listStarts base64Marker (c :: cs) then some 0
    else (markerIdx cs).map (· + 1)

/-- Source lines 94-103: decoded byte count of the base64 payload of a data
URL.  If the `'base64,'` marker is absent the whole string length is
returned; otherwise the characters after the marker are counted, `=` signs
are treated as padding, and the 4-chars-per-3-bytes ratio is applied with
`Math.floor` (truncating `Nat` division). -/
def getBase64PayloadBytes (dataUrl : String) : Nat :=
  match markerIdx dataUrl.toList with
  | none => dataUrl.length
  | some idx =>
    let base64Data := dataUrl.toList.drop (idx + 7)
    let padding := (base64Data.filter (fun c => c == '=')).length
    (base64Data.length - padding) * 3 / 4

/-! ### The adaptive image compressor (source lines 105-175) -/

/-- The mutable locals of the `compress` closure: current render width and
height in pixels, JPEG quality in hundredths, and the attempt counter. -/
structure CompressState where
  width : Nat
  height : Nat
  quality : Nat
  attempts : Nat
deriving DecidableEq, Repr

/-- Source line 127: `const maxAttempts = 50`. -/
def maxAttempts : Nat := 50

/-- Data carried by the rejection on source line 144 (`payloadBytes` and
`maxSizeBytes` appear in the error message), together with the loop state at
the failing attempt, recorded for analysis. -/
structure CompressFailure where
  payloadBytes : Nat
  maxSizeBytes : Nat
  state : CompressState
deriving DecidableEq, Repr

/-- The resolution value of source line 147 (the data URL), together with
the loop state at the successful attempt, recorded for analysis. -/
structure CompressSuccess where
  dataUrl : String
  state : CompressState
deriving DecidableEq, Repr

/-- Outcome of the compression promise: resolution or rejection. -/
def CompressResult : Type := Except CompressFailure CompressSuccess

/-- Source lines 152-158: after an unsuccessful attempt, first step the
quality down by `0.05` towards its `0.05` floor; once the quality is at the
floor, shrink both dimensions by 10% (never below 24) and reset the quality
to `0.5`. -/
def tighten (s : CompressState) : CompressState :=
  if 5 < s.quality then
    { s with quality := max 5 (s.quality - 5) }
  else
    { s with
      width := max 24 (s.width * 9 / 10),
      height := max 24 (s.height * 9 / 10),
      quality := 50 }

/-- One full iteration as a state transformer: bump the attempt counter the
way line 130 does, then tighten.  Trace element `i + 1` of a run equals
`stepAttempt` of trace element `i`. -/
def stepAttempt (s : CompressState) : CompressState :=
  { tighten s with attempts := s.attempts + 1 }

/-- Source lines 129-164, the `compress` closure, producing the promise
outcome.  `enc w h q` abstracts `canvas.toDataURL('image/jpeg', q/100)`
after drawing the image at `w × h`.  The exit test mirrors line 142,
`payloadBytes <= maxSizeBytes || attempts >= maxAttempts || (width <= 24 && quality <= 0.05)`,
and within it line 143 rejects exactly when `payloadBytes > maxSizeBytes`.
The two `Nat.rec` branches repeat the same loop body; they differ only in
the recursive position, where the exhausted-fuel branch falls back to a
rejection (dead code from the entry point, see the head comment). -/
def compressLoopGo (enc : Nat → Nat → Nat → String) (maxSizeBytes : Nat) :
    Nat → CompressState → CompressResult :=
  Nat.rec
    (motive := fun _ => CompressState → CompressResult)
    (fun s =>
      let attempts := s.attempts + 1
      let dataUrl := enc s.width s.height s.quality
      let payloadBytes := getBase64PayloadBytes dataUrl
      let e : CompressState := { s with attempts := attempts }
      if payloadBytes ≤ maxSizeBytes ∨ maxAttempts ≤ attempts ∨
          (s.width ≤ 24 ∧ s.quality ≤ 5) then
        if maxSizeBytes < payloadBytes then
          Except.error ⟨payloadBytes, maxSizeBytes, e⟩
        else
          Except.ok ⟨dataUrl, e⟩
      else
        Except.error ⟨payloadBytes, maxSizeBytes, e⟩)
    (fun _ ih s =>
      let attempts := s.attempts + 1
      let dataUrl := enc s.width s.height s.quality
      let payloadBytes := getBase64PayloadBytes dataUrl
      let e : CompressState := { s with attempts := attempts }
      if payloadBytes ≤ maxSizeBytes ∨ maxAttempts ≤ attempts ∨
          (s.width ≤ 24 ∧ s.quality ≤ 5) then
        if maxSizeBytes < payloadBytes then
          Except.error ⟨payloadBytes, maxSizeBytes, e⟩
        else
          Except.ok ⟨dataUrl, e⟩
      else
        ih (tighten e))

/-- The same loop, producing the sequence of states at which an encode was
attempted (attempt counter already bumped, as by line 130), in order. -/
def compressTraceGo (enc : Nat → Nat → Nat → String) (maxSizeBytes : Nat) :
    Nat → CompressState → List CompressState :=
  Nat.rec
    (motive := fun _ => CompressState → List CompressState)
    (fun s => [{ s with attempts := s.attempts + 1 }])
    (fun _ ih s =>
      let payloadBytes := getBase64PayloadBytes (enc s.width s.height s.quality)
      let e : CompressState := { s with attempts := s.attempts + 1 }
      if payloadBytes ≤ maxSizeBytes ∨ maxAttempts ≤ s.attempts + 1 ∨
          (s.width ≤ 24 ∧ s.quality ≤ 5) then
        [e]
      else
        e :: ih (tighten e))

/-- Source lines 123-125: the loop starts at
`width = min(img.width, 128)`, `height = min(img.height, 128)`,
`quality = 0.5`, with the attempt counter at zero. -/
def initState (imgWidth imgHeight : Nat) : CompressState :=
  { width := min imgWidth 128, height := min imgHeight 128,
    quality := 50, attempts := 0 }

/-- `compressImageToSize` (source lines 105-175) on an image that loaded
with intrinsic dimensions `imgWidth × imgHeight`: the outcome of the
iterative loop started from `initState`.  (`maxSizeBytes` defaults to 1000
in the source; the caller on line 210 passes 1000 explicitly.) -/
def compressImageToSize (enc : Nat → Nat → Nat → String)
    (imgWidth imgHeight maxSizeBytes : Nat) : CompressResult :=
  compressLoopGo enc maxSizeBytes maxAttempts (initState imgWidth imgHeight)

/-- The sequence of states at which the loop of `compressImageToSize`
attempted an encode, in order. -/
def compressAttempts (enc : Nat → Nat → Nat → String)
    (imgWidth imgHeight maxSizeBytes : Nat) : List CompressState :=
  compressTraceGo enc maxSizeBytes maxAttempts (initState imgWidth imgHeight)

/-! ### Unfolding equations for the loop -/

theorem compressLoopGo_zero_eq (enc : Nat → Nat → Nat → String)
    (maxSizeBytes : Nat) (s : CompressState) :
    compressLoopGo enc maxSizeBytes 0 s =
      (let dataUrl := enc s.width s.height s.quality
       let payloadBytes := getBase64PayloadBytes dataUrl
       let e : CompressState := { s with attempts := s.attempts + 1 }
       if payloadBytes ≤ maxSizeBytes ∨ maxAttempts ≤ s.attempts + 1 ∨
           (s.width ≤ 24 ∧ s.quality ≤ 5) then
         if maxSizeBytes < payloadBytes then
           Except.error ⟨payloadBytes, maxSizeBytes, e⟩
         else
           Except.ok ⟨dataUrl, e⟩
       else
         Except.error ⟨payloadBytes, maxSizeBytes, e⟩) := rfl

theorem compressLoopGo_succ_eq (enc : Nat → Nat → Nat → String)
    (maxSizeBytes fuel : Nat) (s : CompressState) :
    compressLoopGo enc maxSizeBytes (fuel + 1) s =
      (let dataUrl := enc s.width s.height s.quality
       let payloadBytes := getBase64PayloadBytes dataUrl
       let e : CompressState := { s with attempts := s.attempts + 1 }
       if payloadBytes ≤ maxSizeBytes ∨ maxAttempts ≤ s.attempts + 1 ∨
           (s.width ≤ 24 ∧ s.quality ≤ 5) then
         if maxSizeBytes < payloadBytes then
           Except.error ⟨payloadBytes, maxSizeBytes, e⟩
         else
           Except.ok ⟨dataUrl, e⟩
       else
         compressLoopGo enc maxSizeBytes fuel (tighten e)) := rfl

theorem compressTraceGo_zero_eq (enc : Nat → Nat → Nat → String)
    (maxSizeBytes : Nat) (s : CompressState) :
    compressTraceGo enc maxSizeBytes 0 s =
      [{ s with attempts := s.attempts + 1 }] := rfl

theorem compressTraceGo_succ_eq (enc : Nat → Nat → Nat → String)
    (maxSizeBytes fuel : Nat) (s : CompressState) :
    compressTraceGo enc maxSizeBytes (fuel + 1) s =
      (let payloadBytes := getBase64PayloadBytes (enc s.width s.height s.quality)
       let e : CompressState := { s with attempts := s.attempts + 1 }
       if payloadBytes ≤ maxSizeBytes ∨ maxAttempts ≤ s.attempts + 1 ∨
           (s.width ≤ 24 ∧ s.quality ≤ 5) then
         [e]
       else
         e :: compressTraceGo enc maxSizeBytes fuel (tighten e)) := rfl

/-! ### Basic lemmas about `tighten` and `stepAttempt` -/

theorem tighten_attempts (s : CompressState) :
    (tighten s).attempts = s.attempts := by
  unfold tighten; split <;> rfl

theorem stepAttempt_width_le {s : CompressState} (h : 24 < s.width) :
    (stepAttempt s).width ≤ s.width := by
  unfold stepAttempt tighten
  split
  · rfl
  · show max 24 (s.width * 9 / 10) ≤ s.width
    refine max_le (by omega) ?_
    calc s.width * 9 / 10 ≤ s.width * 10 / 10 :=
          Nat.div_le_div_right (Nat.mul_le_mul_left _ (by omega))
      _ = s.width := Nat.mul_div_cancel s.width (by omega)

theorem stepAttempt_height_le {s : CompressState} (h : 24 < s.height) :
    (stepAttempt s).height ≤ s.height := by
  unfold stepAttempt tighten
  split
  · rfl
  · show max 24 (s.height * 9 / 10) ≤ s.height
    refine max_le (by omega) ?_
    calc s.height * 9 / 10 ≤ s.height * 10 / 10 :=
          Nat.div_le_div_right (Nat.mul_le_mul_left _ (by omega))
      _ = s.height := Nat.mul_div_cancel s.height (by omega)

theorem stepAttempt_quality_le {s : CompressState} (h : 5 < s.quality) :
    (stepAttempt s).quality ≤ s.quality := by
  unfold stepAttempt tighten
  split
  · show max 5 (s.quality - 5) ≤ s.quality
    exact max_le (by omega) (by omega)
  · omega

/-! ### Loop invariant lemmas -/

/-- A resolution only ever returns a data URL whose decoded payload is
within the byte budget: the resolve of line 147 is guarded by the line-143
check `payloadBytes > maxSizeBytes`. -/
theorem compressLoopGo_ok_payload (enc : Nat → Nat → Nat → String)
    (maxSizeBytes : Nat) :
    ∀ (fuel : Nat) (s : CompressState) (r : CompressSuccess),
      compressLoopGo enc maxSizeBytes fuel s = Except.ok r →
      getBase64PayloadBytes r.dataUrl ≤ maxSizeBytes := by
  intro fuel
  induction fuel with
  | zero =>
    intro s r h
    rw [compressLoopGo_zero_eq] at h
    simp only [] at h
    split at h
    · split at h
      · exact absurd h (by simp)
      · cases h
        exact Nat.le_of_not_lt (by assumption)
    · exact absurd h (by simp)
  | succ fuel ih =>
    intro s r h
    rw [compressLoopGo_succ_eq] at h
    simp only [] at h
    split at h
    · split at h
      · exact absurd h (by simp)
      · cases h
        exact Nat.le_of_not_lt (by assumption)
    · exact ih _ _ h

/-- A rejection reports a payload that exceeds the budget, and happens only
once the attempt bound is exhausted or the `width ≤ 24 && quality ≤ 0.05`
floor test of line 142 holds, provided the fuel covers the attempt bound
(true at the entry point). -/
theorem compressLoopGo_error_conditions (enc : Nat → Nat → Nat → String)
    (maxSizeBytes : Nat) :
    ∀ (fuel : Nat) (s : CompressState) (f : CompressFailure),
      maxAttempts ≤ fuel + s.attempts + 1 →
      compressLoopGo enc maxSizeBytes fuel s = Except.error f →
      maxSizeBytes < f.payloadBytes ∧ f.maxSizeBytes = maxSizeBytes ∧
        (maxAttempts ≤ f.state.attempts ∨
          (f.state.width ≤ 24 ∧ f.state.quality ≤ 5)) := by
  intro fuel
  induction fuel with
  | zero =>
    intro s f hfuel h
    rw [compressLoopGo_zero_eq] at h
    simp only [] at h
    split at h
    · split at h
      · cases h
        exact ⟨by assumption, rfl, Or.inl (by simpa using hfuel)⟩
      · exact absurd h (by simp)
    · exact absurd (by assumption : ¬ _) (by simp; omega)
  | succ fuel ih =>
    intro s f hfuel h
    rw [compressLoopGo_succ_eq] at h
    simp only [] at h
    split at h
    · split at h
      · cases h
        rename_i hcond hgt
        refine ⟨hgt, rfl, ?_⟩
        rcases hcond with hle | hrest
        · omega
        · exact hrest
      · exact absurd h (by simp)
    · refine ih (tighten { s with attempts := s.attempts + 1 }) f ?_ h
      rw [tighten_attempts]
      simp only []
      omega

/-- The number of attempts performed never exceeds what is left of the
attempt budget: the `attempts >= maxAttempts` disjunct of line 142 stops
the loop. -/
theorem compressTraceGo_length (enc : Nat → Nat → Nat → String)
    (maxSizeBytes : Nat) :
    ∀ (fuel : Nat) (s : CompressState),
      s.attempts < maxAttempts →
      (compressTraceGo enc maxSizeBytes fuel s).length ≤
        maxAttempts - s.attempts := by
  intro fuel
  induction fuel with
  | zero =>
    intro s hs
    rw [compressTraceGo_zero_eq]
    simp only [List.length_singleton]
    omega
  | succ fuel ih =>
    intro s hs
    rw [compressTraceGo_succ_eq]
    simp only []
    split
    · simp only [List.length_singleton]; omega
    · rename_i hcond
      have hlt : s.attempts + 1 < maxAttempts := by
        by_contra hge
        exact hcond (Or.inr (Or.inl (by omega)))
      have := ih (tighten { s with attempts := s.attempts + 1 })
        (by rw [tighten_attempts]; simpa using hlt)
      simp only [List.length_cons]
      rw [tighten_attempts] at this
      simp only [] at this
      omega

/-- Every trace starts with the input state after the line-130 counter
bump. -/
theorem compressTraceGo_head (enc : Nat → Nat → Nat → String)
    (maxSizeBytes : Nat) (fuel : Nat) (s : CompressState) :
    (compressTraceGo enc maxSizeBytes fuel s).head? =
      some { s with attempts := s.attempts + 1 } := by
  cases fuel with
  | zero => rw [compressTraceGo_zero_eq]; rfl
  | succ fuel =>
    rw [compressTraceGo_succ_eq]
    simp only []
    split <;> rfl

/-- Consecutive trace elements are related by `stepAttempt`: the loop moves
from one attempt to the next by tightening and bumping the counter. -/
theorem compressTraceGo_chain (enc : Nat → Nat → Nat → String)
    (maxSizeBytes : Nat) :
    ∀ (fuel : Nat) (s : CompressState),
      List.Chain' (fun a b => b = stepAttempt a)
        (compressTraceGo enc maxSizeBytes fuel s) := by
  intro fuel
  induction fuel with
  | zero =>
    intro s
    rw [compressTraceGo_zero_eq]
    exact List.chain'_singleton _
  | succ fuel ih =>
    intro s
    rw [compressTraceGo_succ_eq]
    simp only []
    split
    · exact List.chain'_singleton _
    · refine List.Chain'.cons' (ih _) ?_
      intro y hy
      rw [compressTraceGo_head] at hy
      cases hy
      show _ = stepAttempt _
      unfold stepAttempt
      rw [tighten_attempts]

/-- Indexed form of `compressTraceGo_chain`: element `i + 1` of a trace is
`stepAttempt` of element `i`. -/
theorem chain_getD_succ {t : List CompressState} (d : CompressState)
    (hc : List.Chain' (fun a b => b = stepAttempt a) t) :
    ∀ i, i + 1 < t.length → t.getD (i + 1) d = stepAttempt (t.getD i d) := by
  intro i hi
  have h1 : i < t.length - 1 := by omega
  have h2 := List.chain'_iff_get.mp hc i h1
  rw [List.getD_eq_getElem t d (by omega), List.getD_eq_getElem t d (by omega)]
  simpa using h2

/-- A numeric observation of the state that `stepAttempt` does not increase
while it stays above a floor is non-increasing along any `stepAttempt`
chain, as long as the floor has not been passed before the later index. -/
theorem chain_mono_getD (t : List CompressState) (d : CompressState)
    (hc : List.Chain' (fun a b => b = stepAttempt a) t)
    (v : CompressState → Nat) (floor : Nat)
    (hstep : ∀ s, floor < v s → v (stepAttempt s) ≤ v s) :
    ∀ i j, i ≤ j → j < t.length →
      (∀ k, k < j → floor < v (t.getD k d)) →
      v (t.getD j d) ≤ v (t.getD i d) := by
  intro i j hij
  induction j, hij using Nat.le_induction with
  | base => intro _ _; exact le_rfl
  | succ n hn ihn =>
    intro hlen hguard
    have hsucc := chain_getD_succ d hc n (by omega)
    rw [hsucc]
    calc v (stepAttempt (t.getD n d)) ≤ v (t.getD n d) :=
          hstep _ (hguard n (by omega))
      _ ≤ v (t.getD i d) := ihn (by omega) (fun k hk => hguard k (by omega))

/-! ### Concrete oracles used by witnesses and counterexamples -/

/-- Oracle whose data URL has no `'base64,'` marker and length 3, so its
payload is 3 bytes: every attempt already fits a 1000-byte budget. -/
def encAbc : Nat → Nat → Nat → String := fun _ _ _ => "abc"

/-- Oracle whose data URL has no `'base64,'` marker and length 2, so its
payload is 2 bytes at every width, height and quality: with a 1-byte budget
no attempt ever fits. -/
def encXX : Nat → Nat → Nat → String := fun _ _ _ => "xx"

/-- Default element for `List.getD` on traces. -/
def cd : CompressState := ⟨0, 0, 0, 0⟩

/-! ### Claim C1 -/

/-- C1: for every input image and byte budget, `compressImageToSize` never
resolves with a payload exceeding the budget: whenever it resolves, the
decoded-byte size of the returned data URL, as computed by
`getBase64PayloadBytes`, is at most `maxSizeBytes`. -/
theorem compressImageToSize_ok_within_budget (enc : Nat → Nat → Nat → String)
    (imgWidth imgHeight maxSizeBytes : Nat) (r : CompressSuccess)
    (h : compressImageToSize enc imgWidth imgHeight maxSizeBytes = Except.ok r) :
    getBase64PayloadBytes r.dataUrl ≤ maxSizeBytes :=
  compressLoopGo_ok_payload enc maxSizeBytes maxAttempts
    (initState imgWidth imgHeight) r h

theorem compressImageToSize_ok_within_budget_witness :
    compressImageToSize encAbc 10 10 1000 =
      Except.ok ⟨"abc", ⟨10, 10, 50, 1⟩⟩ ∧
    getBase64PayloadBytes (CompressSuccess.mk "abc" ⟨10, 10, 50, 1⟩).dataUrl ≤ 1000 :=
  ⟨rfl, compressImageToSize_ok_within_budget encAbc 10 10 1000 _ rfl⟩

/-! ### Claim C2 -/

/-- C2 (amended): the loop rejects, with the payload still above the
budget, only when the attempt count is exhausted or when the width has
reached the 24px floor and the quality the 0.05 floor; the height floor is
not part of the line-142 exit test. -/
theorem compressImageToSize_error_conditions (enc : Nat → Nat → Nat → String)
    (imgWidth imgHeight maxSizeBytes : Nat) (f : CompressFailure)
    (h : compressImageToSize enc imgWidth imgHeight maxSizeBytes = Except.error f) :
    maxSizeBytes < f.payloadBytes ∧
      (maxAttempts ≤ f.state.attempts ∨
        (f.state.width ≤ 24 ∧ f.state.quality ≤ 5)) := by
  have hmain := compressLoopGo_error_conditions enc maxSizeBytes maxAttempts
    (initState imgWidth imgHeight) f (by simp [initState, maxAttempts]) h
  exact ⟨hmain.1, hmain.2.2⟩

theorem compressImageToSize_error_conditions_witness :
    compressImageToSize encXX 24 24 1 =
      Except.error ⟨2, 1, ⟨24, 24, 5, 10⟩⟩ ∧
    (1 < (CompressFailure.mk 2 1 ⟨24, 24, 5, 10⟩).payloadBytes ∧
      (maxAttempts ≤ (CompressFailure.mk 2 1 ⟨24, 24, 5, 10⟩).state.attempts ∨
        ((CompressFailure.mk 2 1 ⟨24, 24, 5, 10⟩).state.width ≤ 24 ∧
          (CompressFailure.mk 2 1 ⟨24, 24, 5, 10⟩).state.quality ≤ 5))) :=
  ⟨rfl, compressImageToSize_error_conditions encXX 24 24 1 _ rfl⟩

/-- C2 counterexample to the claim as stated: on a 24×128 image whose
encodes always weigh 2 bytes against a 1-byte budget, the loop rejects at
attempt 10 — before the attempt count is exhausted — with the height still
at 128, far above its 24px floor (only width and quality are at their
floors).  The loop therefore does fail early while one dimension is still
above its floor. -/
theorem compress_fails_while_height_above_floor :
    compressImageToSize encXX 24 128 1 =
      Except.error ⟨2, 1, ⟨24, 128, 5, 10⟩⟩ ∧
    24 < (CompressState.mk 24 128 5 10).height ∧
    (CompressState.mk 24 128 5 10).attempts < maxAttempts :=
  ⟨rfl, by decide, by decide⟩

/-! ### Claim C3 -/

/-- C3: across the attempts of a single run, the explored width, height and
quality are each monotonically non-increasing until their respective floors
(24px for the dimensions, 0.05 for the quality) are reached — that is, on
any stretch of the trace where the value has stayed strictly above its
floor, it never increases. -/
theorem compressAttempts_values_monotone (enc : Nat → Nat → Nat → String)
    (imgWidth imgHeight maxSizeBytes : Nat) (d : CompressState) (i j : Nat)
    (hij : i ≤ j)
    (hj : j < (compressAttempts enc imgWidth imgHeight maxSizeBytes).length) :
    ((∀ k, k < j →
        24 < ((compressAttempts enc imgWidth imgHeight maxSizeBytes).getD k d).width) →
      ((compressAttempts enc imgWidth imgHeight maxSizeBytes).getD j d).width ≤
        ((compressAttempts enc imgWidth imgHeight maxSizeBytes).getD i d).width) ∧
    ((∀ k, k < j →
        24 < ((compressAttempts enc imgWidth imgHeight maxSizeBytes).getD k d).height) →
      ((compressAttempts enc imgWidth imgHeight maxSizeBytes).getD j d).height ≤
        ((compressAttempts enc imgWidth imgHeight maxSizeBytes).getD i d).height) ∧
    ((∀ k, k < j →
        5 < ((compressAttempts enc imgWidth imgHeight maxSizeBytes).getD k d).quality) →
      ((compressAttempts enc imgWidth imgHeight maxSizeBytes).getD j d).quality ≤
        ((compressAttempts enc imgWidth imgHeight maxSizeBytes).getD i d).quality) := by
  have hc := compressTraceGo_chain enc maxSizeBytes maxAttempts
    (initState imgWidth imgHeight)
  exact ⟨fun hg => chain_mono_getD _ d hc (fun s => s.width) 24
          (fun s hs => stepAttempt_width_le hs) i j hij hj hg,
        fun hg => chain_mono_getD _ d hc (fun s => s.height) 24
          (fun s hs => stepAttempt_height_le hs) i j hij hj hg,
        fun hg => chain_mono_getD _ d hc (fun s => s.quality) 5
          (fun s hs => stepAttempt_quality_le hs) i j hij hj hg⟩

theorem compressAttempts_values_monotone_witness :
    (0 : Nat) ≤ 1 ∧
    1 < (compressAttempts encXX 128 128 1).length ∧
    (((compressAttempts encXX 128 128 1).getD 1 cd).width ≤
        ((compressAttempts encXX 128 128 1).getD 0 cd).width ∧
      ((compressAttempts encXX 128 128 1).getD 1 cd).height ≤
        ((compressAttempts encXX 128 128 1).getD 0 cd).height ∧
      ((compressAttempts encXX 128 128 1).getD 1 cd).quality ≤
        ((compressAttempts encXX 128 128 1).getD 0 cd).quality) := by
  have h := compressAttempts_values_monotone encXX 128 128 1 cd 0 1
    (by decide) (by decide)
  exact ⟨by decide, by decide,
    h.1 (by decide), h.2.1 (by decide), h.2.2 (by decide)⟩

/-! ### Claim C4 -/

/-- C4: for every input image (including degenerate ones) and every budget,
the compression loop performs at most `maxAttempts = 50` attempts and then
terminates, either resolving or rejecting. -/
theorem compress_terminates_within_attempt_bound (enc : Nat → Nat → Nat → String)
    (imgWidth imgHeight maxSizeBytes : Nat) :
    (compressAttempts enc imgWidth imgHeight maxSizeBytes).length ≤ maxAttempts ∧
    ((∃ r, compressImageToSize enc imgWidth imgHeight maxSizeBytes = Except.ok r) ∨
      (∃ f, compressImageToSize enc imgWidth imgHeight maxSizeBytes = Except.error f)) := by
  constructor
  · have hlen := compressTraceGo_length enc maxSizeBytes maxAttempts
      (initState imgWidth imgHeight) (by simp [initState, maxAttempts])
    simpa [compressAttempts, initState] using hlen
  · rcases hres : compressImageToSize enc imgWidth imgHeight maxSizeBytes with f | r
    · exact Or.inr ⟨f, rfl⟩
    · exact Or.inl ⟨r, rfl⟩

/-! ### Content selection state (source lines 11-51) -/

/-- Source line 11: `type InputType = 'text' | 'url' | 'contact' | 'image'`. -/
inductive InputType
  | text
  | url
  | contact
  | image
deriving DecidableEq, Repr

/-- Source line 12: `type ImageMode = 'link' | 'embed'`. -/
inductive ImageMode
  | link
  | embed
deriving DecidableEq, Repr

/-- Source line 13: `type ExportFormat = 'png' | 'jpeg' | 'svg'`. -/
inductive ExportFormat
  | png
  | jpeg
  | svg
deriving DecidableEq, Repr

/-- Source lines 15-20: the contact record, all fields optional strings. -/
structure ContactInfo where
  name : String
  phone : String
  email : String
  organization : String
deriving DecidableEq, Repr

/-- The data of a `File` object that the component consults: name, MIME
type and byte size. -/
structure FileInfo where
  name : String
  fileType : String
  size : Nat
deriving DecidableEq, Repr

/-- The `useState` fields of the component that content resolution,
validation, rendering and the image-upload flow read or write
(source lines 23-48). -/
structure GenState where
  inputType : InputType
  textContent : String
  urlContent : String
  contactInfo : ContactInfo
  imageMode : ImageMode
  imageUrl : String
  imageFile : Option FileInfo
  imagePreview : String
  embedDataUrl : String
  imageUrlError : String
  imageFileError : String
  isCompressing : Bool
  qrCodeGenerated : Bool
deriving DecidableEq, Repr

/-! ### Content resolution (source lines 69-77 and 233-281) -/

/-- Whitespace for the purposes of JavaScript `String.prototype.trim()`
(the common ASCII cases: space, tab, line feed, carriage return, vertical
tab, form feed). -/
def isJsWhitespace (c : Char) : Bool :=
  c == ' ' || c == '\t' || c == '\n' || c == '\r' ||
    c == '\x0b' || c == '\x0c'

/-- Drop leading JS whitespace from a character list. -/
def dropLeadingWs : List Char → List Char
  | [] => []
  | c :: cs => if isJsWhitespace c then dropLeadingWs cs else c :: cs

/-- JavaScript `String.prototype.trim()`: strip whitespace from both ends. -/
def jsTrim (s : String) : String :=
  ⟨(dropLeadingWs ((dropLeadingWs s.data).reverse)).reverse⟩

/-- Source lines 69-77: serialize a contact record to a vCard text block.
A field contributes a line exactly when its string is non-empty (JavaScript
string truthiness), in the order full name, organization, phone, email,
between the fixed `BEGIN:VCARD`/`VERSION:3.0` opening and the `END:VCARD`
terminator. -/
def generateVCard (contact : ContactInfo) : String :=
  let vcard := "BEGIN:VCARD\nVERSION:3.0\n"
  let vcard := if contact.name ≠ "" then vcard ++ "FN:" ++ contact.name ++ "\n" else vcard
  let vcard := if contact.organization ≠ "" then vcard ++ "ORG:" ++ contact.organization ++ "\n" else vcard
  let vcard := if contact.phone ≠ "" then vcard ++ "TEL:" ++ contact.phone ++ "\n" else vcard
  let vcard := if contact.email ≠ "" then vcard ++ "EMAIL:" ++ contact.email ++ "\n" else vcard
  vcard ++ "END:VCARD"

/-- The data lines the spec prescribes for a contact record: one line per
non-empty field, in the stable order full name, organization, phone,
email.  Stated from the spec's words, for comparison with `generateVCard`. -/
def vcardFieldLines (contact : ContactInfo) : List String :=
  (if contact.name ≠ "" then ["FN:" ++ contact.name] else [])
    ++ (if contact.organization ≠ "" then ["ORG:" ++ contact.organization] else [])
    ++ (if contact.phone ≠ "" then ["TEL:" ++ contact.phone] else [])
    ++ (if contact.email ≠ "" then ["EMAIL:" ++ contact.email] else [])

/-- Source lines 252-260: `new URL(url)` succeeding is browser behaviour,
abstracted as the oracle `urlParses`; the function returns `false` outright
for a string that is empty after trimming. -/
def isValidURL (urlParses : String → Bool) (url : String) : Bool :=
  if jsTrim url = "" then false else urlParses url

/-- Source lines 233-250: the literal content string handed to the QR
encoder for the active selection. -/
def getQRContent (s : GenState) : String :=
  match s.inputType with
  | InputType.text => jsTrim s.textContent
  | InputType.url => jsTrim s.urlContent
  | InputType.contact => generateVCard s.contactInfo
  | InputType.image =>
    if s.imageMode = ImageMode.link then jsTrim s.imageUrl else s.embedDataUrl

/-- Source lines 262-281: per-variant validity of the current selection.
A contact is valid when name, phone or email is non-blank (the organization
is not consulted); an image link needs a non-blank URL and no recorded URL
error; an embedded image needs a non-empty compressed payload, no
compression in flight and no recorded file error. -/
def hasValidContent (urlParses : String → Bool) (s : GenState) : Bool :=
  match s.inputType with
  | InputType.text => decide (0 < (jsTrim s.textContent).length)
  | InputType.url =>
    decide (0 < (jsTrim s.urlContent).length) && isValidURL urlParses s.urlContent
  | InputType.contact =>
    decide (0 < (jsTrim s.contactInfo.name).length) ||
      decide (0 < (jsTrim s.contactInfo.phone).length) ||
      decide (0 < (jsTrim s.contactInfo.email).length)
  | InputType.image =>
    if s.imageMode = ImageMode.link then
      decide (0 < (jsTrim s.imageUrl).length) && decide (s.imageUrlError = "")
    else
      decide (0 < s.embedDataUrl.length) && !s.isCompressing &&
        decide (s.imageFileError = "")

/-! ### Rendering and export (source lines 283-424) -/

/-- Source lines 300 and 341: the error-correction level requested from the
QR library is `'L'` for an embedded image and `'M'` otherwise. -/
def errorCorrectionLevel (inputType : InputType) (imageMode : ImageMode) : String :=
  if inputType = InputType.image ∧ imageMode = ImageMode.embed then "L" else "M"

/-- What `generateQRCode` does to the rendered output: clear the canvas
(and mark nothing generated), or invoke `QRCode.toCanvas` with a content
string and an error-correction level. -/
inductive RenderAction
  | cleared
  | encoded (content : String) (ecLevel : String)
deriving DecidableEq, Repr

/-- Source lines 283-321: resolve the content; when it is empty or the
selection is invalid, clear any existing rendered output and stop without
calling the encoder; otherwise call the encoder on the content with the
level of `errorCorrectionLevel`.  (The canvas ref is modelled as present.) -/
def generateQRCode (urlParses : String → Bool) (s : GenState) : RenderAction :=
  let content := getQRContent s
  if content = "" ∨ hasValidContent urlParses s = false then
    RenderAction.cleared
  else
    RenderAction.encoded content (errorCorrectionLevel s.inputType s.imageMode)

/-- What `downloadQRCode` does: nothing (guard failed), a fresh encode at
the export resolution followed by a save under the given filename, or a
save of the already-rendered canvas without a fresh encode (the PNG path
when the export resolution equals the display size). -/
inductive DownloadAction
  | blocked
  | encodeAndSave (filename : String) (content : String) (ecLevel : String)
  | saveCanvas (filename : String)
deriving DecidableEq, Repr

/-- Source lines 323-424: the export path.  Blocked unless a QR code is
currently rendered and the resolved content is non-empty; SVG and JPEG
always re-encode at the export resolution; PNG re-encodes only when the
export resolution differs from the display size, else it saves the existing
canvas. -/
def downloadQRCode (s : GenState) (exportFormat : ExportFormat)
    (exportResolution qrSize : Nat) : DownloadAction :=
  if s.qrCodeGenerated = false then
    DownloadAction.blocked
  else
    let content := getQRContent s
    if content = "" then
      DownloadAction.blocked
    else
      let ec := errorCorrectionLevel s.inputType s.imageMode
      match exportFormat with
      | ExportFormat.svg => DownloadAction.encodeAndSave "qrcode.svg" content ec
      | ExportFormat.jpeg => DownloadAction.encodeAndSave "qrcode.jpg" content ec
      | ExportFormat.png =>
        if exportResolution ≠ qrSize then
          DownloadAction.encodeAndSave "qrcode.png" content ec
        else
          DownloadAction.saveCanvas "qrcode.png"

/-! ### Image-mode switching and the upload flow (source lines 177-231,
436-456, 638-661) -/

/-- Source lines 638-648, the link-mode button: switch to link mode and
clear the embed-side state — selected file, preview, compressed payload and
file error. -/
def switchToLinkMode (s : GenState) : GenState :=
  { s with
    imageMode := ImageMode.link,
    imageFile := none,
    imagePreview := "",
    embedDataUrl := "",
    imageFileError := "" }

/-- Source lines 652-661, the embed-mode button: switch to embed mode and
clear the link-side state — image URL and its error. -/
def switchToEmbedMode (s : GenState) : GenState :=
  { s with
    imageMode := ImageMode.embed,
    imageUrl := "",
    imageUrlError := "" }

/-- Source lines 452-456: the effect that starts a (re)compression — it
fires only when the image input is active in embed mode with a selected
file and no compressed payload yet. -/
def embedEffectTriggers (s : GenState) : Bool :=
  decide (s.inputType = InputType.image) &&
    decide (s.imageMode = ImageMode.embed) &&
    s.imageFile.isSome && decide (s.embedDataUrl = "")

/-- `file.type.startsWith('image/')` of source line 182. -/
def isImageMime (fileType : String) : Bool :=
  decide (fileType.data.take 6 = "image/".data)

/-- Source line 188: the 5 MB upload cap. -/
def maxInitialSize : Nat := 5 * 1024 * 1024

/-- Source lines 177-231, the synchronous part of `processImageFile`:
reset the file error and the compressing flag, reject non-image MIME types
and oversized files, otherwise record the preview and the selected file
and, in embed mode, mark a compression of that file as started (the `await`
of line 210; its completion is a separate event, `applyCompressionResult`).
`URL.createObjectURL(file)` is modelled as `"blob:"` plus the file name. -/
def processImageFile (s : GenState) (file : FileInfo) : GenState :=
  let s0 := { s with imageFileError := "", isCompressing := false }
  if isImageMime file.fileType = false then
    { s0 with imageFileError := "Please select an image file" }
  else if maxInitialSize < file.size then
    { s0 with imageFileError := "Image must be smaller than 5MB" }
  else
    let s1 := { s0 with
      imagePreview := "blob:" ++ file.name,
      imageFile := some file }
    if s1.imageMode = ImageMode.embed then
      { s1 with isCompressing := true }
    else
      s1

/-- Source lines 210-218, the continuation run when a compression started
for `sourceFile` resolves with `compressedDataUrl`: the payload is stored
and the compressing flag dropped unconditionally — the code never compares
`sourceFile` against the currently selected `s.imageFile` before applying
the result. -/
def applyCompressionResult (s : GenState) (_sourceFile : FileInfo)
    (compressedDataUrl : String) : GenState :=
  { s with embedDataUrl := compressedDataUrl, isCompressing := false }

/-! ### Concrete states used by witnesses -/

/-- A URL-parse oracle accepting everything; claim theorems hold for every
oracle, witnesses fix one. -/
def alwaysParses : String → Bool := fun _ => true

/-- The contact record with every field empty. -/
def emptyContact : ContactInfo := ⟨"", "", "", ""⟩

/-- The component's initial state (source lines 23-48): text input active,
everything blank, link mode, nothing selected, nothing rendered. -/
def baseState : GenState :=
  { inputType := InputType.text, textContent := "", urlContent := "",
    contactInfo := emptyContact, imageMode := ImageMode.link, imageUrl := "",
    imageFile := none, imagePreview := "", embedDataUrl := "",
    imageUrlError := "", imageFileError := "", isCompressing := false,
    qrCodeGenerated := false }

/-- Image input in embed mode with a successfully compressed payload and a
rendered QR code. -/
def embedState : GenState :=
  { baseState with
    inputType := InputType.image, imageMode := ImageMode.embed,
    embedDataUrl := "data:image/jpeg;base64,AAAA", qrCodeGenerated := true }

/-- Text input holding `"Hello"`. -/
def helloState : GenState :=
  { baseState with textContent := "Hello" }

/-! ### Claim C5 -/

/-- C5: every encode call issued by the render routine or the export
routine carries error-correction level `'L'` exactly when the image input
is active in embed mode, and `'M'` in every other case. -/
theorem qr_ec_level (urlParses : String → Bool) (s : GenState) (c l : String)
    (fmt : ExportFormat) (res size : Nat) (fn : String)
    (h : generateQRCode urlParses s = RenderAction.encoded c l ∨
      downloadQRCode s fmt res size = DownloadAction.encodeAndSave fn c l) :
    l = (if s.inputType = InputType.image ∧ s.imageMode = ImageMode.embed
      then "L" else "M") := by
  rcases h with h | h
  · unfold generateQRCode at h
    simp only [] at h
    split at h
    · exact absurd h (by simp)
    · cases h
      rfl
  · unfold downloadQRCode at h
    simp only [] at h
    split at h
    · exact absurd h (by simp)
    · split at h
      · exact absurd h (by simp)
      · split at h
        · cases h; rfl
        · cases h; rfl
        · split at h
          · cases h; rfl
          · exact absurd h (by simp)

theorem qr_ec_level_witness :
    (generateQRCode alwaysParses embedState =
        RenderAction.encoded "data:image/jpeg;base64,AAAA" "L" ∨
      downloadQRCode embedState ExportFormat.svg 300 300 =
        DownloadAction.encodeAndSave "qrcode.svg" "data:image/jpeg;base64,AAAA" "L") ∧
    "L" = (if embedState.inputType = InputType.image ∧
        embedState.imageMode = ImageMode.embed then "L" else "M") :=
  ⟨Or.inl rfl,
    qr_ec_level alwaysParses embedState "data:image/jpeg;base64,AAAA" "L"
      ExportFormat.svg 300 300 "qrcode.svg" (Or.inl rfl)⟩

/-! ### Claim C7 -/

/-- C7: the render routine clears the output exactly when the resolved
content is empty or the selection is invalid, and it calls the encoder only
on the (non-empty) resolved content of a valid selection. -/
theorem render_gated_on_validity (urlParses : String → Bool) (s : GenState) :
    (generateQRCode urlParses s = RenderAction.cleared ↔
      (getQRContent s = "" ∨ hasValidContent urlParses s = false)) ∧
    (∀ c l, generateQRCode urlParses s = RenderAction.encoded c l →
      c = getQRContent s ∧ c ≠ "" ∧ hasValidContent urlParses s = true) := by
  constructor
  · unfold generateQRCode
    simp only []
    split
    · rename_i hcond
      exact iff_of_true rfl hcond
    · rename_i hcond
      exact iff_of_false (by simp) hcond
  · intro c l h
    unfold generateQRCode at h
    simp only [] at h
    split at h
    · exact absurd h (by simp)
    · rename_i hcond
      push_neg at hcond
      cases h
      exact ⟨rfl, hcond.1, Bool.not_eq_false _ ▸ hcond.2⟩

theorem render_gated_on_validity_witness :
    generateQRCode alwaysParses helloState = RenderAction.encoded "Hello" "M" ∧
    ("Hello" = getQRContent helloState ∧ "Hello" ≠ "" ∧
      hasValidContent alwaysParses helloState = true) :=
  ⟨rfl, (render_gated_on_validity alwaysParses helloState).2 "Hello" "M" rfl⟩

/-! ### Claim C6 -/

/-- C6: the vCard for any contact record is the fixed
`BEGIN:VCARD`/`VERSION:3.0` opening, one data line per non-empty field in
the stable order full name, organization, phone, email, and the
`END:VCARD` terminator; a record with only an email set yields exactly the
one email data line; a record with all fields empty is invalid content, so
the render routine clears instead of encoding. -/
theorem generateVCard_structure (c : ContactInfo) :
    generateVCard c =
      "BEGIN:VCARD\nVERSION:3.0\n" ++
        String.join ((vcardFieldLines c).map (fun line => line ++ "\n")) ++
        "END:VCARD" ∧
    (c.name = "" → c.organization = "" → c.phone = "" → c.email ≠ "" →
      vcardFieldLines c = ["EMAIL:" ++ c.email]) ∧
    (∀ (urlParses : String → Bool) (s : GenState),
      s.inputType = InputType.contact → s.contactInfo = c →
      c.name = "" → c.organization = "" → c.phone = "" → c.email = "" →
      hasValidContent urlParses s = false ∧
        generateQRCode urlParses s = RenderAction.cleared) := by
  refine ⟨?_, ?_, ?_⟩
  · rcases eq_or_ne c.name "" with hn | hn <;>
      rcases eq_or_ne c.organization "" with ho | ho <;>
      rcases eq_or_ne c.phone "" with hp | hp <;>
      rcases eq_or_ne c.email "" with he | he <;>
      · apply String.ext
        simp [generateVCard, vcardFieldLines, hn, ho, hp, he, String.join_eq]
  · intro hn ho hp he
    simp [vcardFieldLines, hn, ho, hp, he]
  · intro urlParses s ht hc hn ho hp he
    subst hc
    have hvalid : hasValidContent urlParses s = false := by
      simp only [hasValidContent, ht, hn, hp, he]
      decide
    exact ⟨hvalid, by simp [generateQRCode, hvalid]⟩

/-- Contact record with only the email set. -/
def emailOnlyContact : ContactInfo := ⟨"", "", "a@example.com", ""⟩

/-- Contact input whose record is fully empty. -/
def emptyContactState : GenState :=
  { baseState with inputType := InputType.contact }

theorem generateVCard_structure_witness :
    vcardFieldLines emailOnlyContact = ["EMAIL:" ++ emailOnlyContact.email] ∧
    hasValidContent alwaysParses emptyContactState = false ∧
    generateQRCode alwaysParses emptyContactState = RenderAction.cleared := by
  refine ⟨(generateVCard_structure emailOnlyContact).2.1 rfl rfl rfl (by decide),
    ?_, ?_⟩
  · exact ((generateVCard_structure emptyContact).2.2 alwaysParses
      emptyContactState rfl rfl rfl rfl rfl rfl).1
  · exact ((generateVCard_structure emptyContact).2.2 alwaysParses
      emptyContactState rfl rfl rfl rfl rfl rfl).2

/-! ### Claim C8 -/

/-- C8: switching from embed to link mode clears the compressed payload,
the selected file and the preview; switching back to embed without
re-selecting a file leaves the payload empty, does not retrigger the
compression effect (no file is selected), and leaves embed-mode content
invalid. -/
theorem mode_switch_discards_embed_payload (urlParses : String → Bool)
    (s : GenState) :
    (switchToLinkMode s).embedDataUrl = "" ∧
    (switchToLinkMode s).imageFile = none ∧
    (switchToLinkMode s).imagePreview = "" ∧
    (switchToEmbedMode (switchToLinkMode s)).embedDataUrl = "" ∧
    (switchToEmbedMode (switchToLinkMode s)).imageFile = none ∧
    embedEffectTriggers (switchToEmbedMode (switchToLinkMode s)) = false ∧
    (s.inputType = InputType.image →
      hasValidContent urlParses (switchToEmbedMode (switchToLinkMode s)) = false) := by
  refine ⟨rfl, rfl, rfl, rfl, rfl, ?_, ?_⟩
  · simp [embedEffectTriggers, switchToEmbedMode, switchToLinkMode]
  · intro ht
    simp [hasValidContent, switchToEmbedMode, switchToLinkMode, ht,
      show ("" : String).length = 0 from rfl]

theorem mode_switch_discards_embed_payload_witness :
    embedState.inputType = InputType.image ∧
    hasValidContent alwaysParses
      (switchToEmbedMode (switchToLinkMode embedState)) = false :=
  ⟨rfl,
    (mode_switch_discards_embed_payload alwaysParses embedState).2.2.2.2.2.2 rfl⟩

/-! ### Claim C9 -/

/-- First file of the stale-compression scenario. -/
def fileA : FileInfo := ⟨"a.png", "image/png", 1000⟩

/-- Second file of the stale-compression scenario. -/
def fileB : FileInfo := ⟨"b.png", "image/png", 2000⟩

/-- Image input in embed mode before any upload. -/
def embedUploadState : GenState :=
  { baseState with inputType := InputType.image, imageMode := ImageMode.embed }

/-- C9 fails on the code: select `fileA` (its compression starts), select
`fileB` while that compression is still in flight, and let `fileA`'s result
arrive late.  The success continuation of `processImageFile` (source lines
210-218) stores the result without comparing the file it was computed for
against the currently selected file, so the stale payload for `fileA` is
applied as `embedDataUrl` while `imageFile` is `fileB` — it is not
discarded. -/
theorem stale_compression_result_applied :
    (applyCompressionResult
        (processImageFile (processImageFile embedUploadState fileA) fileB)
        fileA "data:image/jpeg;base64,STALE").imageFile = some fileB ∧
    (applyCompressionResult
        (processImageFile (processImageFile embedUploadState fileA) fileB)
        fileA "data:image/jpeg;base64,STALE").embedDataUrl =
      "data:image/jpeg;base64,STALE" ∧
    fileA ≠ fileB :=
  ⟨rfl, rfl, by decide⟩

/-! ### Claim C10 -/

/-- C10: a contact record whose only non-empty field is the organization is
invalid content, so the render routine clears instead of encoding — even
though its resolved vCard text block is non-empty and carries an `ORG:`
data line. -/
theorem org_only_contact_not_encoded (urlParses : String → Bool) (s : GenState)
    (ht : s.inputType = InputType.contact)
    (hn : s.contactInfo.name = "") (hp : s.contactInfo.phone = "")
    (he : s.contactInfo.email = "") (ho : s.contactInfo.organization ≠ "") :
    hasValidContent urlParses s = false ∧
    generateQRCode urlParses s = RenderAction.cleared ∧
    generateVCard s.contactInfo =
      "BEGIN:VCARD\nVERSION:3.0\n" ++ "ORG:" ++ s.contactInfo.organization ++
        "\n" ++ "END:VCARD" ∧
    getQRContent s = generateVCard s.contactInfo ∧
    getQRContent s ≠ "" := by
  have hvalid : hasValidContent urlParses s = false := by
    simp only [hasValidContent, ht, hn, hp, he]
    decide
  have hvc : generateVCard s.contactInfo =
      "BEGIN:VCARD\nVERSION:3.0\n" ++ "ORG:" ++ s.contactInfo.organization ++
        "\n" ++ "END:VCARD" := by
    apply String.ext
    simp [generateVCard, hn, hp, he, ho]
  have hcontent : getQRContent s = generateVCard s.contactInfo := by
    simp [getQRContent, ht]
  refine ⟨hvalid, by simp [generateQRCode, hvalid], hvc, hcontent, ?_⟩
  rw [hcontent, hvc]
  intro hemp
  have hlen := congrArg String.length hemp
  simp only [String.length_append] at hlen
  have h0 : ("" : String).length = 0 := rfl
  rw [h0] at hlen
  have hpos : 0 < "BEGIN:VCARD\nVERSION:3.0\n".length := by decide
  omega

/-- Contact input with only the organization set. -/
def orgOnlyState : GenState :=
  { baseState with
    inputType := InputType.contact, contactInfo := ⟨"", "", "", "Acme"⟩ }

theorem org_only_contact_not_encoded_witness :
    hasValidContent alwaysParses orgOnlyState = false ∧
    generateQRCode alwaysParses orgOnlyState = RenderAction.cleared ∧
    generateVCard orgOnlyState.contactInfo =
      "BEGIN:VCARD\nVERSION:3.0\n" ++ "ORG:" ++
        orgOnlyState.contactInfo.organization ++ "\n" ++ "END:VCARD" ∧
    getQRContent orgOnlyState = generateVCard orgOnlyState.contactInfo ∧
    getQRContent orgOnlyState ≠ "" :=
  org_only_contact_not_encoded alwaysParses orgOnlyState rfl rfl rfl rfl
    (by decide)

/-- The loop state recorded in a promise outcome. -/
def resultState : CompressResult → CompressState
  | Except.ok r => r.state
  | Except.error f => f.state

/-- The promise outcome and the attempt trace describe the same run: the
state recorded in the resolution or rejection is the last state of the
trace. -/
theorem compressTraceGo_getLast (enc : Nat → Nat → Nat → String) (m : Nat) :
    ∀ (fuel : Nat) (s : CompressState),
      (compressTraceGo enc m fuel s).getLast? =
        some (resultState (compressLoopGo enc m fuel s)) := by
  intro fuel
  induction fuel with
  | zero =>
    intro s
    rw [compressTraceGo_zero_eq, compressLoopGo_zero_eq]
    simp only []
    split
    · split <;> rfl
    · rfl
  | succ fuel ih =>
    intro s
    rw [compressTraceGo_succ_eq, compressLoopGo_succ_eq]
    simp only []
    split
    · split <;> rfl
    · have hne : compressTraceGo enc m fuel
          (tighten { s with attempts := s.attempts + 1 }) ≠ [] := by
        intro hnil
        have hh := compressTraceGo_head enc m fuel
          (tighten { s with attempts := s.attempts + 1 })
        rw [hnil] at hh
        exact absurd hh (by simp)
      rcases htr : compressTraceGo enc m fuel
          (tighten { s with attempts := s.attempts + 1 }) with _ | ⟨b, l⟩
      · exact absurd htr hne
      · have hih := ih (tighten { s with attempts := s.attempts + 1 })
        rw [htr] at hih
        rw [List.getLast?_cons_cons]
        exact hih
